import Mathlib

/-!
Verification of the Bao hypervisor I/O dispatch driver
(`drivers/virt/bao`): a shallow embedding of the per-client request
queue, range table, routing, device-model registry, ioeventfd
(notification) bridge and the backlog-drain step, together with proofs
of the specified properties.

Machine integers (`u64`) are modelled as `Nat` with explicit reduction
modulo `2 ^ 64` exactly where the C code can overflow.  Linked lists
are modelled as Lean lists; `list_add` prepends and `list_add_tail`
appends, matching the kernel list API.  Pointers to clients inside a
device model are modelled as indices into the DM's client list.
-/

set_option autoImplicit false

namespace BaoDrv

/-- Modulus of the C `u64` type. -/
def u64Mod : Nat := 2 ^ 64

/-! Linux error numbers used by the driver (always returned negated). -/

def EPERM : Int := 1
def ENOMEM : Int := 12
def EFAULT : Int := 14
def EBUSY : Int := 16
def EEXIST : Int := 17
def EINVAL : Int := 22

/-! I/O operation codes, from `include/uapi/linux/bao.h`. -/

def BAO_IO_WRITE : Nat := 0

def BAO_IO_READ : Nat := 1

def BAO_IO_ASK : Nat := 2

def BAO_IO_NOTIFY : Nat := 3

/-- `BAO_IOEVENTFD_FLAG_DATAMATCH = (1 << 1)` from `bao_drv.h`. -/
def BAO_IOEVENTFD_FLAG_DATAMATCH : Nat := 2

/-- `BAO_IOEVENTFD_FLAG_DEASSIGN = (1 << 2)` from `bao_drv.h`. -/
def BAO_IOEVENTFD_FLAG_DEASSIGN : Nat := 4

/-- `struct bao_virtio_request` from `include/uapi/linux/bao.h`.
All fields are `u64` except `ret`, which is a signed 32-bit status. -/
structure bao_virtio_request where
  dm_id : Nat
  addr : Nat
  op : Nat
  value : Nat
  access_width : Nat
  request_id : Nat
  ret : Int
deriving DecidableEq, Repr

/-- `struct bao_io_range` from `bao_drv.h`: an inclusive `[start, end]`
byte interval.  The C field `end` is a Lean keyword, hence `end_`. -/
structure bao_io_range where
  start : Nat
  end_ : Nat
deriving DecidableEq, Repr

/-- `struct bao_io_client` from `bao_drv.h`.  The queue of pending
requests and the range table are the fields the verified operations
touch; the back pointer to the DM, the wait queue and the kernel
thread are not part of the functional state.  The handler pointer is
modelled by `has_handler` (the only kernel handler in the driver is
the ioeventfd handler, embedded separately below). -/
structure bao_io_client where
  name : String
  is_control : Bool
  has_handler : Bool
  destroying : Bool
  virtio_requests : List bao_virtio_request
  range_list : List bao_io_range
deriving DecidableEq, Repr

/-- `bao_io_client_push_request` (io_client.c:46): appends the request
to the tail of the client's request list (`list_add_tail`). -/
def bao_io_client_push_request (client : bao_io_client)
    (req : bao_virtio_request) : bao_io_client :=
  { client with virtio_requests := client.virtio_requests ++ [req] }

/-- The request returned by `bao_io_client_pop_request` on an empty
queue: only `ret` is initialised (to `-EINVAL`) by the C code; the
remaining fields are left uninitialised on the stack and are modelled
as zero. -/
def bao_error_request : bao_virtio_request :=
  { dm_id := 0, addr := 0, op := 0, value := 0, access_width := 0,
    request_id := 0, ret := -EINVAL }

/-- `bao_io_client_pop_request` (io_client.c:63): removes and returns
the first (oldest) request; on an empty list it returns a request
whose `ret` field is `-EINVAL` and leaves the list unchanged. -/
def bao_io_client_pop_request (client : bao_io_client) :
    bao_io_client × bao_virtio_request :=
  match client.virtio_requests with
  | [] => (client, bao_error_request)
  | req :: rest => ({ client with virtio_requests := rest }, req)

/-- `bao_io_client_request` (io_client.c:282): `NULL` client yields
`-EEXIST`; otherwise pop the oldest request and return its `ret`
field as the call's status. -/
def bao_io_client_request (client : Option bao_io_client) :
    Option (bao_io_client × bao_virtio_request) × Int :=
  match client with
  | none => (none, -EEXIST)
  | some c =>
    let popped := bao_io_client_pop_request c
    (some popped, popped.2.ret)

/-- `bao_io_client_range_add` (io_client.c:297): rejects `end < start`
with `-EINVAL`, otherwise prepends (`list_add`) the new range. -/
def bao_io_client_range_add (client : bao_io_client)
    (start end_ : Nat) : bao_io_client × Int :=
  if end_ < start then
    (client, -EINVAL)
  else
    ({ client with
        range_list := { start := start, end_ := end_ } :: client.range_list },
      0)

/-- `bao_io_client_range_del` (io_client.c:323): removes the first
range equal to `[start, end]`; a no-op if absent. -/
def bao_io_client_range_del (client : bao_io_client)
    (start end_ : Nat) : bao_io_client :=
  { client with
    range_list := range_del_aux client.range_list start end_ }
where
  range_del_aux : List bao_io_range → Nat → Nat → List bao_io_range
    | [], _, _ => []
    | r :: rest, s, e =>
      if s = r.start ∧ e = r.end_ then rest
      else r :: range_del_aux rest s e

/-- `bao_io_request_in_range` (io_client.c:345): containment test used
for routing.  The C expression `req->addr + req->access_width - 1` is
evaluated in `u64` arithmetic, i.e. modulo `2 ^ 64`; adding
`u64Mod - 1` and reducing is the same as adding `access_width - 1`
with wraparound. -/
def bao_io_request_in_range (range : bao_io_range)
    (req : bao_virtio_request) : Bool :=
  if range.start ≤ req.addr ∧
      (req.addr + req.access_width + (u64Mod - 1)) % u64Mod ≤ range.end_ then
    true
  else
    false

/-! ### Request queue FIFO helpers -/

/-- Push a whole sequence of requests, in order. -/
def bao_io_client_push_all (client : bao_io_client)
    (reqs : List bao_virtio_request) : bao_io_client :=
  reqs.foldl bao_io_client_push_request client

/-- Pop `n` requests in succession, collecting the results in order. -/
def bao_io_client_pop_all :
    bao_io_client → Nat → bao_io_client × List bao_virtio_request
  | client, 0 => (client, [])
  | client, n + 1 =>
    let step := bao_io_client_pop_request client
    let rest := bao_io_client_pop_all step.1 n
    (rest.1, step.2 :: rest.2)

theorem push_all_virtio_requests (client : bao_io_client)
    (reqs : List bao_virtio_request) :
    (bao_io_client_push_all client reqs).virtio_requests =
      client.virtio_requests ++ reqs := by
  induction reqs generalizing client with
  | nil => simp [bao_io_client_push_all]
  | cons r rest ih =>
    simp [bao_io_client_push_all, List.foldl_cons] at *
    rw [ih]
    simp [bao_io_client_push_request]

theorem pop_all_of_queue (client : bao_io_client)
    (l : List bao_virtio_request) (h : client.virtio_requests = l) :
    (bao_io_client_pop_all client l.length).2 = l := by
  induction l generalizing client with
  | nil => simp [bao_io_client_pop_all]
  | cons r rest ih =>
    simp [bao_io_client_pop_all, bao_io_client_pop_request, h]
    exact ih _ rfl

/-- A fresh client with an empty queue, as produced by
`bao_io_client_create` before any dispatch. -/
def emptyControlClient : bao_io_client :=
  { name := "bao-control-client-0", is_control := true, has_handler := false,
    destroying := false, virtio_requests := [], range_list := [] }

/-- A sample request used for concrete witnesses. -/
def sampleReq (a : Nat) : bao_virtio_request :=
  { dm_id := 0, addr := a, op := BAO_IO_WRITE, value := a, access_width := 4,
    request_id := a, ret := 0 }

/-- Claim C1: pushing a sequence of requests on a client (starting from
an empty queue) and then popping them back returns exactly that
sequence, in push order: per-client FIFO. -/
theorem fifo_per_client (client : bao_io_client)
    (reqs : List bao_virtio_request) (h : client.virtio_requests = []) :
    (bao_io_client_pop_all (bao_io_client_push_all client reqs)
        reqs.length).2 = reqs := by
  have hq := push_all_virtio_requests client reqs
  rw [h] at hq
  simpa using pop_all_of_queue _ reqs (by simpa using hq)

/-- Concrete instance of `fifo_per_client`: three requests come back in
push order. -/
theorem fifo_per_client_witness :
    emptyControlClient.virtio_requests = [] ∧
      (bao_io_client_pop_all
          (bao_io_client_push_all emptyControlClient
            [sampleReq 1, sampleReq 2, sampleReq 3]) 3).2 =
        [sampleReq 1, sampleReq 2, sampleReq 3] :=
  ⟨rfl, fifo_per_client emptyControlClient
    [sampleReq 1, sampleReq 2, sampleReq 3] rfl⟩

/-! ### Range containment (claim C2) -/

/-- A range whose upper end sits just below the top of the `u64`
address space, used to exhibit the wraparound in the containment
test. -/
def wrapRange : bao_io_range := { start := 0, end_ := 2 ^ 64 - 2 }

/-- A request at address `2 ^ 64 - 1 = wrapRange.end_ + 1` with an
8-byte access: `addr + access_width - 1` wraps around to `6`. -/
def wrapReq : bao_virtio_request :=
  { dm_id := 0, addr := 2 ^ 64 - 1, op := BAO_IO_WRITE, value := 0,
    access_width := 8, request_id := 0, ret := 0 }

/-- Claim C2 counterexample: for the range `[0, 2^64 - 2]` and a
request at `addr = end + 1 = 2^64 - 1` with access width `8`, the C
test computes `addr + width - 1` in `u64` arithmetic, which wraps to
`6 ≤ end`, so the containment test returns `true` although the claim
demands `false` whenever `addr = end + 1`. -/
theorem range_containment_counterexample :
    wrapReq.addr = wrapRange.end_ + 1 ∧
      wrapReq.access_width = 8 ∧
      bao_io_request_in_range wrapRange wrapReq = true := by
  refine ⟨by decide, by decide, ?_⟩
  decide

/-- Claim C2 (amended): for every access width `w ≥ 1` such that
`addr + w - 1` does not overflow `u64`, the containment test used for
routing succeeds iff `start ≤ addr` and `addr + w - 1 ≤ end`, and in
particular it is false for `addr = end + 1`. -/
theorem range_containment (range : bao_io_range) (req : bao_virtio_request)
    (hw : 1 ≤ req.access_width)
    (hov : req.addr + req.access_width ≤ u64Mod) :
    (bao_io_request_in_range range req = true ↔
      range.start ≤ req.addr ∧
        req.addr + req.access_width - 1 ≤ range.end_) ∧
      (req.addr = range.end_ + 1 →
        bao_io_request_in_range range req = false) := by
  have hmod : (req.addr + req.access_width + (u64Mod - 1)) % u64Mod
      = req.addr + req.access_width - 1 := by
    have h1 : req.addr + req.access_width + (u64Mod - 1)
        = (req.addr + req.access_width - 1) + u64Mod := by
      have : 0 < u64Mod := by decide
      omega
    rw [h1, Nat.add_mod_right]
    exact Nat.mod_eq_of_lt (by omega)
  unfold bao_io_request_in_range
  rw [hmod]
  constructor
  · split <;> simp_all
  · intro he
    split <;> simp_all

/-- Concrete instance of `range_containment`: range `[256, 511]`,
4-byte access at address `512 = end + 1`, where the test is false. -/
theorem range_containment_witness :
    (bao_io_request_in_range { start := 256, end_ := 511 }
        (sampleReq 512) = true ↔
      (256 : Nat) ≤ (sampleReq 512).addr ∧
        (sampleReq 512).addr + (sampleReq 512).access_width - 1 ≤ 511) ∧
      ((sampleReq 512).addr = 511 + 1 →
        bao_io_request_in_range { start := 256, end_ := 511 }
          (sampleReq 512) = false) :=
  range_containment { start := 256, end_ := 511 } (sampleReq 512)
    (by decide) (by decide)

/-! ### Routing (claims C3, C10) -/

/-- `struct ioeventfd` from `ioeventfd.c`: one notification binding.
The `eventfd_ctx` pointer is modelled by the file-descriptor number
that identifies the signal channel. -/
structure ioeventfd where
  eventfd : Nat
  addr : Nat
  data : Nat
  length : Nat
  wildcard : Bool
deriving DecidableEq, Repr

/-- `struct bao_dm` from `bao_drv.h`, restricted to the functional
state: the client list (`io_clients`), the `control_client` and
`ioeventfd_client` pointers (modelled as indices into `io_clients`),
and the notification-binding list (`ioeventfds`). -/
structure bao_dm where
  id : Nat
  io_clients : List bao_io_client
  control_client : Option Nat
  ioeventfd_client : Option Nat
  ioeventfds : List ioeventfd
deriving DecidableEq, Repr

/-- The inner loop of `bao_io_client_find`: does any of the client's
ranges contain the request? -/
def bao_io_client_matches (client : bao_io_client)
    (req : bao_virtio_request) : Bool :=
  client.range_list.any (fun range => bao_io_request_in_range range req)

/-- The outer loop of `bao_io_client_find` (io_client.c:361): walk the
client list in order and return the index of the first client one of
whose ranges contains the request. -/
def bao_io_client_find_aux :
    List bao_io_client → Nat → bao_virtio_request → Option Nat
  | [], _, _ => none
  | client :: rest, idx, req =>
    if bao_io_client_matches client req then some idx
    else bao_io_client_find_aux rest (idx + 1) req

/-- `bao_io_client_find` (io_client.c:355): first client in list order
whose range table contains the request; falls back to the Control
client (possibly `NULL`) when no client matches. -/
def bao_io_client_find (dm : bao_dm) (req : bao_virtio_request) :
    Option Nat :=
  match bao_io_client_find_aux dm.io_clients 0 req with
  | some idx => some idx
  | none => dm.control_client

theorem find_aux_of_no_match (clients : List bao_io_client) (idx : Nat)
    (req : bao_virtio_request)
    (h : ∀ c ∈ clients, bao_io_client_matches c req = false) :
    bao_io_client_find_aux clients idx req = none := by
  induction clients generalizing idx with
  | nil => rfl
  | cons c rest ih =>
    have hc := h c (List.mem_cons_self c rest)
    simp [bao_io_client_find_aux, hc]
    exact ih (idx + 1) (fun d hd => h d (List.mem_cons_of_mem c hd))

theorem find_aux_first_match (clients : List bao_io_client) (idx : Nat)
    (req : bao_virtio_request) (i : Nat) (h : i < clients.length)
    (hmatch : bao_io_client_matches (clients.get ⟨i, h⟩) req = true)
    (hbefore : ∀ j : Nat, ∀ hj : j < i,
      bao_io_client_matches (clients.get ⟨j, Nat.lt_trans hj h⟩) req
        = false) :
    bao_io_client_find_aux clients idx req = some (idx + i) := by
  induction clients generalizing idx i with
  | nil => exact absurd h (Nat.not_lt_zero i)
  | cons c rest ih =>
    cases i with
    | zero =>
      simp at hmatch
      simp [bao_io_client_find_aux, hmatch]
    | succ i' =>
      have hc : bao_io_client_matches c req = false := by
        have := hbefore 0 (Nat.succ_pos i')
        simpa using this
      simp [bao_io_client_find_aux, hc]
      have hrec := ih (idx + 1) i' (Nat.lt_of_succ_lt_succ h)
        (by simpa using hmatch)
        (fun j hj => by
          have := hbefore (j + 1) (Nat.succ_lt_succ hj)
          simpa using this)
      have harith : idx + 1 + i' = idx + (i' + 1) := by omega
      rw [hrec, harith]

/-- Claim C3: if no client in the DM's list has a range containing the
request, routing returns the Control client; if some client matches,
the first matching client in list order is returned. -/
theorem routing_first_match_or_control (dm : bao_dm)
    (req : bao_virtio_request) :
    ((∀ c ∈ dm.io_clients, bao_io_client_matches c req = false) →
      bao_io_client_find dm req = dm.control_client) ∧
      (∀ i : Nat, ∀ h : i < dm.io_clients.length,
        bao_io_client_matches (dm.io_clients.get ⟨i, h⟩) req = true →
        (∀ j : Nat, ∀ hj : j < i,
          bao_io_client_matches (dm.io_clients.get ⟨j, Nat.lt_trans hj h⟩)
            req = false) →
        bao_io_client_find dm req = some i) := by
  constructor
  · intro hnone
    unfold bao_io_client_find
    rw [find_aux_of_no_match dm.io_clients 0 req hnone]
  · intro i h hmatch hbefore
    unfold bao_io_client_find
    rw [find_aux_first_match dm.io_clients 0 req i h hmatch hbefore]
    simp

/-- A client owning the range `[0x200, 0x2ff]`, as the ioeventfd
client does after one binding is assigned. -/
def rangeClient : bao_io_client :=
  { name := "bao-ioeventfd-client-0", is_control := false,
    has_handler := true, destroying := false, virtio_requests := [],
    range_list := [{ start := 0x200, end_ := 0x2ff }] }

/-- A DM shaped as `bao_dm_create` leaves it: ioeventfd client first
(most recently prepended), Control client second. -/
def dmW : bao_dm :=
  { id := 0, io_clients := [rangeClient, emptyControlClient],
    control_client := some 1, ioeventfd_client := some 0,
    ioeventfds := [] }

/-- Concrete instance of `routing_first_match_or_control`: a request
at `0x400` matches no range and routes to the Control client (index
1); a request at `0x240` matches the ioeventfd client's range and
routes to index 0. -/
theorem routing_first_match_or_control_witness :
    bao_io_client_find dmW (sampleReq 0x400) = dmW.control_client ∧
      bao_io_client_find dmW (sampleReq 0x240) = some 0 :=
  ⟨(routing_first_match_or_control dmW (sampleReq 0x400)).1 (by decide),
    (routing_first_match_or_control dmW (sampleReq 0x240)).2 0 (by decide)
      (by decide) (fun j hj => absurd hj (Nat.not_lt_zero j))⟩

/-! ### Hypervisor backlog and the dispatch step (claims C4, C8) -/

/-- Modelled from the spec: the hypervisor side of the Ask hypercall
(spec §4.1).  The hypervisor keeps a per-DM FIFO of trapped I/O
requests; Ask pops the oldest and reports the number of requests
still pending for that DM.  The hypercall itself
(`bao_hypercall_virtio`) is architecture-specific register marshaling
outside the dispatch engine. -/
structure hypervisor_state where
  pending : List bao_virtio_request
deriving DecidableEq, Repr

/-- One iteration of the dispatch step (`dispatch_io` in
io_dispatcher.c, called `bao_dispatch_io` through `bao_drv.h`): ask
the hypervisor for the oldest pending request, route it with
`bao_io_client_find`, push it on the routed client's queue and return
the number of requests still pending.  A missing routed client
(Control client absent and no range matched) is `-EINVAL` and the
request is dropped; an empty hypervisor backlog reports `0` pending
and dispatches nothing. -/
def bao_dispatch_io (dm : bao_dm) (hyp : hypervisor_state) :
    bao_dm × hypervisor_state × Int :=
  match hyp.pending with
  | [] => (dm, hyp, 0)
  | req :: rest =>
    match bao_io_client_find dm req with
    | none => (dm, { pending := rest }, -EINVAL)
    | some idx =>
      match dm.io_clients.get? idx with
      | none => (dm, { pending := rest }, -EINVAL)
      | some client =>
        ({ dm with
            io_clients := dm.io_clients.set idx
              (bao_io_client_push_request client req) },
          { pending := rest }, (rest.length : Int))

/-- The drain loop `while (bao_dispatch_io(dm) > 0);` of
`bao_io_client_create` (io_client.c:275), written with explicit fuel:
every iteration that returns a positive pending count shortens the
hypervisor backlog, so `pending.length + 1` iterations always reach
the exit condition and the fuelled loop computes exactly what the C
loop does. -/
def bao_drain_io_fuel :
    Nat → bao_dm → hypervisor_state → bao_dm × hypervisor_state
  | 0, dm, hyp => (dm, hyp)
  | fuel + 1, dm, hyp =>
    let step := bao_dispatch_io dm hyp
    if 0 < step.2.2 then bao_drain_io_fuel fuel step.1 step.2.1
    else (step.1, step.2.1)

/-- The drain loop with enough fuel to terminate. -/
def bao_drain_io (dm : bao_dm) (hyp : hypervisor_state) :
    bao_dm × hypervisor_state :=
  bao_drain_io_fuel (hyp.pending.length + 1) dm hyp

/-- The client object as initialised by `bao_io_client_create`
(io_client.c:241): empty request queue, empty range table. -/
def io_client_new (has_handler is_control : Bool) (name : String) :
    bao_io_client :=
  { name := name, is_control := is_control, has_handler := has_handler,
    destroying := false, virtio_requests := [], range_list := [] }

/-- The client-list update of `bao_io_client_create`
(io_client.c:264): prepend the new client (`list_add`) and record it
as the Control or ioeventfd client.  Prepending shifts the index of
every previously stored client pointer by one. -/
def io_client_insert (dm : bao_dm) (client : bao_io_client)
    (is_control : Bool) : bao_dm :=
  { dm with
    io_clients := client :: dm.io_clients,
    control_client :=
      if is_control then some 0 else dm.control_client.map (· + 1),
    ioeventfd_client :=
      if is_control then dm.ioeventfd_client.map (· + 1) else some 0 }

/-- `bao_io_client_create` (io_client.c:225): rejects a non-control
client without a handler; otherwise builds a fresh client, inserts it
into the DM, and — for the Control client only — drains the
hypervisor backlog. -/
def bao_io_client_create (dm : bao_dm) (hyp : hypervisor_state)
    (has_handler : Bool) (is_control : Bool) (name : String) :
    Option (bao_dm × hypervisor_state) :=
  if !has_handler && !is_control then none
  else
    let dm1 := io_client_insert dm
      (io_client_new has_handler is_control name) is_control
    if is_control then some (bao_drain_io dm1 hyp) else some (dm1, hyp)

theorem create_control_eq (dm : bao_dm) (hyp : hypervisor_state)
    (hh : Bool) (name : String) :
    bao_io_client_create dm hyp hh true name =
      some (bao_drain_io
        (io_client_insert dm (io_client_new hh true name) true) hyp) := by
  cases hh <;> rfl

theorem create_noncontrol_eq (dm : bao_dm) (hyp : hypervisor_state)
    (name : String) :
    bao_io_client_create dm hyp true false name =
      some (io_client_insert dm (io_client_new true false name) false,
        hyp) := rfl

/-- `bao_dm_create` (dm.c:107): refuse an id already present in the
registry, leaving the registry untouched; otherwise build the DM,
create its Control client (which drains the backlog) and its
ioeventfd client, and add it to the registry.  In the C code the DM is
linked into the registry before its clients are created; since the
registry holds the same object, attaching the fully initialised DM is
observationally the same. -/
def bao_dm_create (registry : List bao_dm) (hyp : hypervisor_state)
    (info_id : Nat) :
    Option bao_dm × List bao_dm × hypervisor_state :=
  if registry.any (fun dm => dm.id == info_id) then (none, registry, hyp)
  else
    let dm0 : bao_dm :=
      { id := info_id, io_clients := [], control_client := none,
        ioeventfd_client := none, ioeventfds := [] }
    let step1 := (bao_io_client_create dm0 hyp false true
      ("bao-control-client-" ++ toString info_id)).getD (dm0, hyp)
    let step2 := (bao_io_client_create step1.1 step1.2 true false
      ("bao-ioeventfd-client-" ++ toString info_id)).getD step1
    (some step2.1, step2.1 :: registry, step2.2)

/-- Claim C4: a second `bao_dm_create` with an id already in the
registry fails (no new DM) and returns the registry and hypervisor
state unchanged, so the existing DM is untouched. -/
theorem dm_create_duplicate_id (registry : List bao_dm)
    (hyp : hypervisor_state) (x : Nat)
    (hdup : ∃ dm ∈ registry, dm.id = x) :
    bao_dm_create registry hyp x = (none, registry, hyp) := by
  have hany : registry.any (fun dm => dm.id == x) = true := by
    rcases hdup with ⟨dm, hmem, hid⟩
    rw [List.any_eq_true]
    exact ⟨dm, hmem, by simp [hid]⟩
  unfold bao_dm_create
  rw [hany]
  simp

/-- Concrete instance of `dm_create_duplicate_id`: a registry holding
the DM with id `0` rejects a second create with id `0`. -/
theorem dm_create_duplicate_id_witness :
    bao_dm_create [dmW] { pending := [] } 0 =
      (none, [dmW], { pending := [] }) :=
  dm_create_duplicate_id [dmW] { pending := [] } 0 (by decide)

/-- Total number of copies of a request queued across all clients of a
DM. -/
def dm_request_count (dm : bao_dm) (req : bao_virtio_request) : Nat :=
  (dm.io_clients.map (fun c => c.virtio_requests.count req)).sum

theorem sum_map_set {α : Type} (f : α → Nat) (l : List α) (i : Nat)
    (h : i < l.length) (x : α) :
    ((l.set i x).map f).sum + f (l.get ⟨i, h⟩) = (l.map f).sum + f x := by
  induction l generalizing i with
  | nil => cases h
  | cons a rest ih =>
    cases i with
    | zero =>
      have hget0 : (a :: rest).get ⟨0, h⟩ = a := rfl
      simp only [List.set_cons_zero, List.map_cons, List.sum_cons, hget0]
      omega
    | succ j =>
      have hj : j < rest.length := Nat.lt_of_succ_lt_succ h
      have hih := ih j hj
      simp only [List.set_cons_succ, List.map_cons, List.sum_cons,
        List.get_cons_succ]
      omega

theorem find_aux_lt (clients : List bao_io_client) (idx : Nat)
    (req : bao_virtio_request) (i : Nat)
    (h : bao_io_client_find_aux clients idx req = some i) :
    i < idx + clients.length := by
  induction clients generalizing idx with
  | nil => simp [bao_io_client_find_aux] at h
  | cons c rest ih =>
    by_cases hc : bao_io_client_matches c req = true
    · rw [bao_io_client_find_aux, if_pos hc] at h
      injection h with h
      simp
      omega
    · rw [bao_io_client_find_aux, if_neg hc] at h
      have := ih (idx + 1) h
      simp at *
      omega

/-- The routed client index is always in range, provided the Control
client pointer (the fallback) is. -/
theorem find_index_lt (dm : bao_dm) (req : bao_virtio_request) (i : Nat)
    (hfind : bao_io_client_find dm req = some i) (ci : Nat)
    (hc : dm.control_client = some ci)
    (hci : ci < dm.io_clients.length) : i < dm.io_clients.length := by
  unfold bao_io_client_find at hfind
  cases haux : bao_io_client_find_aux dm.io_clients 0 req with
  | some j =>
    rw [haux] at hfind
    have hlt := find_aux_lt dm.io_clients 0 req j haux
    have hji : j = i := by injection hfind
    omega
  | none =>
    rw [haux, hc] at hfind
    have hji : ci = i := by injection hfind
    omega

/-- One dispatch step on a non-empty backlog, with a valid Control
client: the backlog shrinks by the dispatched request, the returned
pending count is the remaining backlog size, the client list shape is
preserved, and exactly one copy of the dispatched request is added
across the DM's queues. -/
theorem dispatch_io_step (dm : bao_dm) (hyp : hypervisor_state)
    (r : bao_virtio_request) (rest : List bao_virtio_request)
    (hp : hyp.pending = r :: rest) (ci : Nat)
    (hc : dm.control_client = some ci)
    (hci : ci < dm.io_clients.length) :
    (bao_dispatch_io dm hyp).2.1.pending = rest ∧
      (bao_dispatch_io dm hyp).2.2 = (rest.length : Int) ∧
      (bao_dispatch_io dm hyp).1.control_client = dm.control_client ∧
      (bao_dispatch_io dm hyp).1.io_clients.length =
        dm.io_clients.length ∧
      ∀ q, dm_request_count (bao_dispatch_io dm hyp).1 q =
        dm_request_count dm q + List.count q [r] := by
  have hfind : ∃ i, bao_io_client_find dm r = some i := by
    unfold bao_io_client_find
    cases haux : bao_io_client_find_aux dm.io_clients 0 r with
    | some j => exact ⟨j, rfl⟩
    | none => exact ⟨ci, hc⟩
  rcases hfind with ⟨i, hi⟩
  have hilt : i < dm.io_clients.length := find_index_lt dm r i hi ci hc hci
  have hget : dm.io_clients.get? i = some (dm.io_clients.get ⟨i, hilt⟩) :=
    List.get?_eq_get hilt
  have hred : bao_dispatch_io dm hyp =
      (({ dm with
            io_clients := dm.io_clients.set i
              (bao_io_client_push_request (dm.io_clients.get ⟨i, hilt⟩) r) } :
          bao_dm),
        ({ pending := rest } : hypervisor_state), (rest.length : Int)) := by
    simp only [bao_dispatch_io, hp, hi, hget]
  rw [hred]
  refine ⟨rfl, rfl, rfl, by simp, ?_⟩
  intro q
  unfold dm_request_count
  simp only
  have hsum := sum_map_set (fun c => c.virtio_requests.count q)
    dm.io_clients i hilt
    (bao_io_client_push_request (dm.io_clients.get ⟨i, hilt⟩) r)
  have hpush : (bao_io_client_push_request (dm.io_clients.get ⟨i, hilt⟩)
      r).virtio_requests.count q =
      (dm.io_clients.get ⟨i, hilt⟩).virtio_requests.count q +
        List.count q [r] := by
    simp [bao_io_client_push_request]
  rw [hpush] at hsum
  omega

/-- Draining with enough fuel, with a valid Control client: the
backlog ends empty and every backlogged request lands on exactly one
client queue (the total per-request count over all clients grows by
its multiplicity in the backlog). -/
theorem drain_io_fuel_spec (fuel : Nat) (dm : bao_dm)
    (hyp : hypervisor_state) (ci : Nat)
    (hc : dm.control_client = some ci)
    (hci : ci < dm.io_clients.length)
    (hfuel : hyp.pending.length < fuel) :
    (bao_drain_io_fuel fuel dm hyp).2.pending = [] ∧
      ∀ q, dm_request_count (bao_drain_io_fuel fuel dm hyp).1 q =
        dm_request_count dm q + List.count q hyp.pending := by
  induction fuel generalizing dm hyp ci with
  | zero => exact absurd hfuel (Nat.not_lt_zero _)
  | succ fuel ih =>
    cases hp : hyp.pending with
    | nil =>
      have hstep : bao_dispatch_io dm hyp = (dm, hyp, 0) := by
        unfold bao_dispatch_io
        rw [hp]
      simp [bao_drain_io_fuel, hstep, hp, dm_request_count]
    | cons r rest =>
      have hstep := dispatch_io_step dm hyp r rest hp ci hc hci
      rcases hstep with ⟨hpend, hret, hctrl, hlen, hcount⟩
      rw [bao_drain_io_fuel]
      by_cases hpos : 0 < (bao_dispatch_io dm hyp).2.2
      · rw [if_pos hpos]
        have hih := ih (bao_dispatch_io dm hyp).1
          (bao_dispatch_io dm hyp).2.1 ci (hctrl.trans hc)
          (by rw [hlen]; exact hci)
          (by rw [hpend]; rw [hp] at hfuel; simpa using hfuel)
        refine ⟨hih.1, ?_⟩
        intro q
        have h1 := hih.2 q
        rw [hpend] at h1
        rw [h1, hcount q]
        simp [List.count_cons]
        omega
      · rw [if_neg hpos]
        have hrest : rest = [] := by
          rw [hret] at hpos
          cases rest with
          | nil => rfl
          | cons a l => simp at hpos
        refine ⟨by rw [hpend, hrest], ?_⟩
        intro q
        rw [hcount q, hrest]

/-- Claim C8: creating the Control client immediately drains the
hypervisor backlog — afterwards the hypervisor has no pending request
and every backlogged request sits on exactly one client queue of the
DM (counted with multiplicity), none lost; creating a non-control
client leaves the hypervisor backlog untouched. -/
theorem control_client_create_drains (dm : bao_dm)
    (hyp : hypervisor_state) (hh : Bool) (name : String) :
    (∀ dm2 hyp2,
      bao_io_client_create dm hyp hh true name = some (dm2, hyp2) →
      hyp2.pending = [] ∧
        ∀ q, dm_request_count dm2 q =
          dm_request_count dm q + List.count q hyp.pending) ∧
      (∀ dm2 hyp2,
        bao_io_client_create dm hyp hh false name = some (dm2, hyp2) →
        hyp2 = hyp) := by
  constructor
  · intro dm2 hyp2 hcreate
    rw [create_control_eq] at hcreate
    injection hcreate with hpair
    have hspec := drain_io_fuel_spec (hyp.pending.length + 1)
      (io_client_insert dm (io_client_new hh true name) true) hyp 0 rfl
      (by simp [io_client_insert]) (by omega)
    have hdm2 : dm2 = (bao_drain_io
        (io_client_insert dm (io_client_new hh true name) true) hyp).1 :=
      (congrArg Prod.fst hpair).symm
    have hhyp2 : hyp2 = (bao_drain_io
        (io_client_insert dm (io_client_new hh true name) true) hyp).2 :=
      (congrArg Prod.snd hpair).symm
    unfold bao_drain_io at hdm2 hhyp2
    refine ⟨by rw [hhyp2]; exact hspec.1, ?_⟩
    intro q
    rw [hdm2, hspec.2 q]
    have hbase : dm_request_count
        (io_client_insert dm (io_client_new hh true name) true) q =
        dm_request_count dm q := by
      simp [dm_request_count, io_client_insert, io_client_new]
    rw [hbase]
  · intro dm2 hyp2 hcreate
    cases hh with
    | false => simp [bao_io_client_create] at hcreate
    | true =>
      rw [create_noncontrol_eq] at hcreate
      injection hcreate with hpair
      exact (congrArg Prod.snd hpair).symm

/-- A DM before its Control client exists: only the ioeventfd client
(owning the range `[0x200, 0x2ff]`) is attached. -/
def dmPre : bao_dm :=
  { id := 0, io_clients := [rangeClient], control_client := none,
    ioeventfd_client := some 0, ioeventfds := [] }

/-- Three requests trapped by the hypervisor before the Control client
exists. -/
def backlog : hypervisor_state :=
  { pending := [sampleReq 0x240, sampleReq 0x400, sampleReq 0x80] }

/-- The DM after creating the Control client on `dmPre` under
`backlog`: the request at `0x240` landed on the ioeventfd client, the
other two on the new Control client, in dispatch order. -/
def dmDrained : bao_dm :=
  { id := 0,
    io_clients :=
      [{ name := "bao-control-client-0", is_control := true,
         has_handler := false, destroying := false,
         virtio_requests := [sampleReq 0x400, sampleReq 0x80],
         range_list := [] },
        { rangeClient with virtio_requests := [sampleReq 0x240] }],
    control_client := some 0, ioeventfd_client := some 1,
    ioeventfds := [] }

/-- Concrete instance of `control_client_create_drains`: creating the
Control client on `dmPre` under `backlog` empties the backlog and the
request at `0x400` is queued exactly once across the DM's clients. -/
theorem control_client_create_drains_witness :
    ({ pending := [] } : hypervisor_state).pending = [] ∧
      dm_request_count dmDrained (sampleReq 0x400) =
        dm_request_count dmPre (sampleReq 0x400) +
          List.count (sampleReq 0x400) backlog.pending :=
  ⟨((control_client_create_drains dmPre backlog false
        "bao-control-client-0").1 dmDrained { pending := [] }
      (by decide)).1,
    ((control_client_create_drains dmPre backlog false
        "bao-control-client-0").1 dmDrained { pending := [] }
      (by decide)).2 (sampleReq 0x400)⟩

/-! ### Notification bridge (ioeventfd.c; claims C5, C6, C7, C10) -/

/-- `struct bao_ioeventfd` from `include/uapi/linux/bao.h`: the
user-supplied binding configuration. -/
structure bao_ioeventfd where
  fd : Nat
  flags : Nat
  addr : Nat
  len : Nat
  data : Nat
deriving DecidableEq, Repr

/-- `bao_ioeventfd_config_valid` (ioeventfd.c:55): rejects a config
whose `addr + len` wraps around in `u64` arithmetic or whose `len` is
not 1, 2, 4 or 8.  (The `NULL`-pointer check has no functional
counterpart here.) -/
def bao_ioeventfd_config_valid (config : bao_ioeventfd) : Bool :=
  if (config.addr + config.len) % u64Mod < config.addr then false
  else if ¬ (config.len = 1 ∨ config.len = 2 ∨ config.len = 4 ∨
      config.len = 8) then false
  else true

/-- The binding object built by `bao_ioeventfd_assign`
(ioeventfd.c:150): `kzalloc` zeroes `data` and `wildcard`; with
`BAO_IOEVENTFD_FLAG_DATAMATCH` the configured data is recorded,
otherwise the binding is a wildcard. -/
def ioeventfd_of_config (config : bao_ioeventfd) : ioeventfd :=
  { eventfd := config.fd, addr := config.addr, length := config.len,
    data :=
      if config.flags &&& BAO_IOEVENTFD_FLAG_DATAMATCH ≠ 0 then config.data
      else 0,
    wildcard := ¬ (config.flags &&& BAO_IOEVENTFD_FLAG_DATAMATCH ≠ 0) }

/-- `bao_ioeventfd_is_conflict` (ioeventfd.c:79): an existing binding
with the same eventfd and address conflicts when either binding is a
wildcard or the match data coincide. -/
def bao_ioeventfd_is_conflict (dm : bao_dm) (new : ioeventfd) : Bool :=
  dm.ioeventfds.any (fun p =>
    p.eventfd == new.eventfd && p.addr == new.addr &&
      (p.wildcard || new.wildcard || p.data == new.data))

/-- The range registration of `bao_ioeventfd_assign` (ioeventfd.c:175):
`bao_io_client_range_add(dm->ioeventfd_client, addr, addr + len - 1)`,
with the end address computed in `u64` arithmetic.  A missing
ioeventfd client would be a kernel fault in C; it is modelled as an
error with the DM unchanged. -/
def assign_add_range (dm : bao_dm) (new : ioeventfd) : bao_dm × Int :=
  match dm.ioeventfd_client with
  | none => (dm, -EINVAL)
  | some i =>
    match dm.io_clients.get? i with
    | none => (dm, -EINVAL)
    | some client =>
      let step := bao_io_client_range_add client new.addr
        ((new.addr + new.length + (u64Mod - 1)) % u64Mod)
      ({ dm with io_clients := dm.io_clients.set i step.1 }, step.2)

/-- The binding registration of `bao_ioeventfd_assign`
(ioeventfd.c:181): `list_add_tail` appends the new binding. -/
def assign_add_binding (dm : bao_dm) (new : ioeventfd) : bao_dm :=
  { dm with ioeventfds := dm.ioeventfds ++ [new] }

/-- `bao_ioeventfd_assign` (ioeventfd.c:126): validate the config,
reject conflicts, then register the address range with the ioeventfd
client's range table and only afterwards append the binding. -/
def bao_ioeventfd_assign (dm : bao_dm) (config : bao_ioeventfd) :
    bao_dm × Int :=
  if !bao_ioeventfd_config_valid config then (dm, -EINVAL)
  else
    let new := ioeventfd_of_config config
    if bao_ioeventfd_is_conflict dm new then (dm, -EEXIST)
    else
      let step := assign_add_range dm new
      if step.2 < 0 then (dm, step.2)
      else (assign_add_binding step.1 new, 0)

/-- The scan of `bao_ioeventfd_deassign` (ioeventfd.c:212): find the
first binding with the given eventfd and the list with that binding
removed. -/
def deassign_scan :
    List ioeventfd → Nat → Option ioeventfd × List ioeventfd
  | [], _ => (none, [])
  | p :: rest, fd =>
    if p.eventfd = fd then (some p, rest)
    else
      let step := deassign_scan rest fd
      (step.1, p :: step.2)

/-- The range removal of `bao_ioeventfd_deassign` (ioeventfd.c:216):
delete `[addr, addr + len - 1]` from the ioeventfd client's range
table. -/
def ioeventfd_client_range_del (dm : bao_dm) (p : ioeventfd) : bao_dm :=
  match dm.ioeventfd_client with
  | none => dm
  | some i =>
    match dm.io_clients.get? i with
    | none => dm
    | some client =>
      { dm with
        io_clients := dm.io_clients.set i
          (bao_io_client_range_del client p.addr
            ((p.addr + p.length + (u64Mod - 1)) % u64Mod)) }

/-- `bao_ioeventfd_deassign` (ioeventfd.c:200): remove the first
binding with the given eventfd, deleting its range first; a no-op if
no binding matches.  Always returns `0`. -/
def bao_ioeventfd_deassign (dm : bao_dm) (config : bao_ioeventfd) :
    bao_dm × Int :=
  let scan := deassign_scan dm.ioeventfds config.fd
  match scan.1 with
  | none => (dm, 0)
  | some p =>
    let dm1 := ioeventfd_client_range_del dm p
    ({ dm1 with ioeventfds := scan.2 }, 0)

/-- `bao_ioeventfd_client_config` (ioeventfd.c:269): with the DEASSIGN
flag it runs the deassign path (return value ignored) and then — as
the C code is written — unconditionally falls through to the assign
path. -/
def bao_ioeventfd_client_config (dm : bao_dm) (config : bao_ioeventfd) :
    bao_dm × Int :=
  let dm1 :=
    if config.flags &&& BAO_IOEVENTFD_FLAG_DEASSIGN ≠ 0 then
      (bao_ioeventfd_deassign dm config).1
    else dm
  bao_ioeventfd_assign dm1 config

/-- Conversion of an unsigned value to a C `int`: keep the low 32
bits and reinterpret them as a signed 32-bit integer (the wrapping
conversion the kernel relies on). -/
def c_int_of_u64 (v : Nat) : Int :=
  if v % 2 ^ 32 < 2 ^ 31 then ((v % 2 ^ 32 : Nat) : Int)
  else ((v % 2 ^ 32 : Nat) : Int) - 2 ^ 32

/-- `bao_ioeventfd_match` (ioeventfd.c:105): first binding whose
address equals the request address, whose length is at least `len`,
and which is a wildcard or carries the written value.  The `len`
parameter is a C `int`, so the caller's `u64` access width arrives
truncated; the `length` field is likewise an `int` written from the
`u32` config length, so it is read through the same conversion. -/
def bao_ioeventfd_match (dm : bao_dm) (addr data : Nat) (len : Int) :
    Option ioeventfd :=
  dm.ioeventfds.find? (fun p =>
    p.addr == addr && decide (len ≤ c_int_of_u64 p.length) &&
      (p.wildcard || p.data == data))

/-- `bao_ioeventfd_handler` (ioeventfd.c:235): a Read request is
answered with value `0` without consulting the bindings; any other
request is matched against the bindings and the matched binding's
eventfd is signaled.  The second component lists the eventfds
signaled. -/
def bao_ioeventfd_handler (dm : bao_dm) (req : bao_virtio_request) :
    bao_virtio_request × List Nat × Int :=
  if req.op = BAO_IO_READ then ({ req with value := 0 }, [], 0)
  else
    match bao_ioeventfd_match dm req.addr req.value
        (c_int_of_u64 req.access_width) with
    | some p => (req, [p.eventfd], 0)
    | none => (req, [], 0)

theorem u64Mod_eq : u64Mod = 18446744073709551616 := by
  norm_num [u64Mod]

theorem of_config_addr (config : bao_ioeventfd) :
    (ioeventfd_of_config config).addr = config.addr := rfl

theorem of_config_length (config : bao_ioeventfd) :
    (ioeventfd_of_config config).length = config.len := rfl

theorem config_valid_iff (config : bao_ioeventfd) :
    bao_ioeventfd_config_valid config = true ↔
      ¬ ((config.addr + config.len) % u64Mod < config.addr) ∧
        (config.len = 1 ∨ config.len = 2 ∨ config.len = 4 ∨
          config.len = 8) := by
  unfold bao_ioeventfd_config_valid
  split
  · rename_i h
    constructor
    · intro hf
      exact absurd hf (by simp)
    · rintro ⟨ha, _⟩
      exact absurd h ha
  · rename_i h
    split
    · rename_i h2
      constructor
      · intro hf
        exact absurd hf (by simp)
      · rintro ⟨_, hb⟩
        exact absurd hb h2
    · rename_i h2
      constructor
      · intro _
        exact ⟨h, not_not.mp h2⟩
      · intro _
        rfl

theorem config_valid_bounds (config : bao_ioeventfd)
    (hv : bao_ioeventfd_config_valid config = true) :
    1 ≤ config.len ∧ config.len ≤ 8 ∧
      config.addr + config.len < u64Mod := by
  rcases (config_valid_iff config).mp hv with ⟨hnw, hlen⟩
  rw [u64Mod_eq] at hnw ⊢
  rcases hlen with h | h | h | h <;> omega

theorem is_conflict_iff (dm : bao_dm) (new : ioeventfd) :
    bao_ioeventfd_is_conflict dm new = true ↔
      ∃ p ∈ dm.ioeventfds, p.eventfd = new.eventfd ∧
        p.addr = new.addr ∧
        (p.wildcard = true ∨ new.wildcard = true ∨
          p.data = new.data) := by
  simp [bao_ioeventfd_is_conflict, List.any_eq_true, and_assoc,
    or_assoc]

/-- Claim C5: the bind (assign) path rejects with `-EINVAL` every
config whose length is not 1, 2, 4 or 8 or whose `addr + len` wraps,
and with `-EEXIST` every config indistinguishable from an existing
binding (same channel, same address, either wildcard or equal match
data) — in both cases the DM (bindings and range tables) is returned
unchanged; on success the range is registered with the ioeventfd
client's range table first and the binding appended afterwards. -/
theorem ioeventfd_assign_spec (dm : bao_dm) (config : bao_ioeventfd) :
    ((¬ (config.len = 1 ∨ config.len = 2 ∨ config.len = 4 ∨
          config.len = 8) ∨
        (config.addr + config.len) % u64Mod < config.addr) →
      bao_ioeventfd_assign dm config = (dm, -EINVAL)) ∧
      (bao_ioeventfd_config_valid config = true →
        (∃ p ∈ dm.ioeventfds, p.eventfd = config.fd ∧
          p.addr = config.addr ∧
          (p.wildcard = true ∨
            (ioeventfd_of_config config).wildcard = true ∨
            p.data = (ioeventfd_of_config config).data)) →
        bao_ioeventfd_assign dm config = (dm, -EEXIST)) ∧
      (bao_ioeventfd_config_valid config = true →
        bao_ioeventfd_is_conflict dm (ioeventfd_of_config config)
          = false →
        ∀ i client, dm.ioeventfd_client = some i →
          dm.io_clients.get? i = some client →
          bao_ioeventfd_assign dm config =
            (assign_add_binding
              (assign_add_range dm (ioeventfd_of_config config)).1
              (ioeventfd_of_config config), 0)) := by
  refine ⟨?_, ?_, ?_⟩
  · intro hbad
    have hv : bao_ioeventfd_config_valid config = false := by
      cases hvb : bao_ioeventfd_config_valid config with
      | false => rfl
      | true =>
        exfalso
        rcases (config_valid_iff config).mp hvb with ⟨hnw, hlen⟩
        rcases hbad with hc | hc
        · exact hc hlen
        · exact hnw hc
    simp [bao_ioeventfd_assign, hv]
  · intro hv hex
    have hc : bao_ioeventfd_is_conflict dm (ioeventfd_of_config config)
        = true :=
      (is_conflict_iff dm (ioeventfd_of_config config)).mpr hex
    simp [bao_ioeventfd_assign, hv, hc]
  · intro hv hnc i client hcli hget
    have hb := config_valid_bounds config hv
    have hmod : (config.addr + config.len + (u64Mod - 1)) % u64Mod =
        config.addr + config.len - 1 := by
      rw [u64Mod_eq] at hb ⊢
      omega
    have hstep2 : (assign_add_range dm (ioeventfd_of_config config)).2
        = 0 := by
      simp only [assign_add_range, hcli, hget]
      simp only [bao_io_client_range_add, of_config_addr,
        of_config_length, hmod]
      rw [if_neg (by omega)]
    simp [bao_ioeventfd_assign, hv, hnc, hstep2]

/-- A valid, conflict-free data-match binding configuration. -/
def cfgW : bao_ioeventfd :=
  { fd := 7, flags := BAO_IOEVENTFD_FLAG_DATAMATCH, addr := 0x300,
    len := 4, data := 42 }

/-- Concrete instance of `ioeventfd_assign_spec`: assigning `cfgW` on
`dmW` succeeds, adding the range before appending the binding. -/
theorem ioeventfd_assign_spec_witness :
    bao_ioeventfd_assign dmW cfgW =
      (assign_add_binding
        (assign_add_range dmW (ioeventfd_of_config cfgW)).1
        (ioeventfd_of_config cfgW), 0) :=
  (ioeventfd_assign_spec dmW cfgW).2.2 (by decide) (by decide)
    0 rangeClient (by decide) (by decide)

theorem c_int_of_u64_small (v : Nat) (h : v < 2 ^ 31) :
    c_int_of_u64 v = (v : Int) := by
  have h32 : v < 2 ^ 32 := lt_trans h (by norm_num)
  unfold c_int_of_u64
  rw [Nat.mod_eq_of_lt h32, if_pos h]

/-- Claim C6 (amended): for a Write request whose access width is
below `2 ^ 31` — so C's truncation of the `u64` width to `int` is the
identity — and for binding lengths below `2 ^ 31` (true of every
binding the bind path can create, lengths being validated to
1, 2, 4 or 8), the handler signals a channel iff some binding has the
same address, length at least the access width, and is a wildcard or
carries match data equal to the written value; for a Read request the
handler sets the value to `0` and returns success without signaling
anything.  For wider accesses C compares the truncated width
instead. -/
theorem ioeventfd_handler_spec (dm : bao_dm) (req : bao_virtio_request)
    (hwidth : req.access_width < 2 ^ 31)
    (hlen : ∀ p ∈ dm.ioeventfds, p.length < 2 ^ 31) :
    (req.op = BAO_IO_WRITE →
      ((bao_ioeventfd_handler dm req).2.1 ≠ [] ↔
        ∃ p ∈ dm.ioeventfds, p.addr = req.addr ∧
          req.access_width ≤ p.length ∧
          (p.wildcard = true ∨ p.data = req.value))) ∧
      (req.op = BAO_IO_READ →
        bao_ioeventfd_handler dm req =
          ({ req with value := 0 }, [], 0)) := by
  constructor
  · intro hop
    have hne : ¬ req.op = BAO_IO_READ := by
      rw [hop]
      decide
    unfold bao_ioeventfd_handler
    rw [if_neg hne]
    cases hm : bao_ioeventfd_match dm req.addr req.value
        (c_int_of_u64 req.access_width) with
    | some p =>
      simp only [ne_eq]
      constructor
      · intro _
        have hmem := List.mem_of_find?_eq_some hm
        have hpred := List.find?_some hm
        simp only [Bool.and_eq_true, Bool.or_eq_true, beq_iff_eq,
          decide_eq_true_eq] at hpred
        have hle : req.access_width ≤ p.length := by
          have hle' := hpred.1.2
          rw [c_int_of_u64_small _ hwidth,
            c_int_of_u64_small _ (hlen p hmem)] at hle'
          exact_mod_cast hle'
        exact ⟨p, hmem, hpred.1.1, hle, hpred.2⟩
      · intro _
        simp
    | none =>
      simp only [ne_eq]
      constructor
      · intro hfalse
        exact absurd trivial hfalse
      · rintro ⟨p, hp, h1, h2, h3⟩
        have hthis := List.find?_eq_none.mp hm p hp
        simp only [Bool.and_eq_true, Bool.or_eq_true, beq_iff_eq,
          decide_eq_true_eq, not_and, not_or] at hthis
        have h2' : c_int_of_u64 req.access_width ≤
            c_int_of_u64 p.length := by
          rw [c_int_of_u64_small _ hwidth,
            c_int_of_u64_small _ (hlen p hp)]
          exact_mod_cast h2
        rcases hthis ⟨h1, h2'⟩ with ⟨hw, hd⟩
        rcases h3 with h | h
        · exact (hw h).elim
        · exact (hd h).elim
  · intro hop
    unfold bao_ioeventfd_handler
    rw [if_pos hop]

/-- A wildcard binding on channel (eventfd) 7 covering
`[0x300, 0x303]`. -/
def bindB : ioeventfd :=
  { eventfd := 7, addr := 0x300, data := 0, length := 4,
    wildcard := true }

/-- The ioeventfd client owning the range of `bindB`. -/
def clientB : bao_io_client :=
  { name := "bao-ioeventfd-client-0", is_control := false,
    has_handler := true, destroying := false, virtio_requests := [],
    range_list := [{ start := 0x300, end_ := 0x303 }] }

/-- A DM holding the single binding `bindB` together with its
registered range. -/
def dmB : bao_dm :=
  { id := 0, io_clients := [clientB, emptyControlClient],
    control_client := some 1, ioeventfd_client := some 0,
    ioeventfds := [bindB] }

/-- A write of any value to the bound address. -/
def mkWrite (a v w : Nat) : bao_virtio_request :=
  { dm_id := 0, addr := a, op := BAO_IO_WRITE, value := v,
    access_width := w, request_id := 0, ret := 0 }

/-- Concrete instance of `ioeventfd_handler_spec`: on `dmB` a 4-byte
write of value `77` at `0x300` signals channel 7 (the binding is a
wildcard), and a read at `0x300` is answered with `0` and no
signal. -/
theorem ioeventfd_handler_spec_witness :
    (bao_ioeventfd_handler dmB (mkWrite 0x300 77 4)).2.1 ≠ [] ∧
      bao_ioeventfd_handler dmB
          { mkWrite 0x300 77 4 with op := BAO_IO_READ } =
        ({ { mkWrite 0x300 77 4 with op := BAO_IO_READ } with
            value := 0 }, [], 0) :=
  ⟨((ioeventfd_handler_spec dmB (mkWrite 0x300 77 4) (by decide)
        (by decide)).1 rfl).mpr
      ⟨bindB, by decide, by decide, by decide, Or.inl rfl⟩,
    (ioeventfd_handler_spec dmB
        { mkWrite 0x300 77 4 with op := BAO_IO_READ } (by decide)
        (by decide)).2 rfl⟩

/-- A write whose `u64` access width exceeds 32 bits: C truncates it
to the `int` value `4` when matching. -/
def wideReq : bao_virtio_request :=
  { dm_id := 0, addr := 0x300, op := BAO_IO_WRITE, value := 13,
    access_width := 2 ^ 32 + 4, request_id := 0, ret := 0 }

/-- Claim C6 counterexample: on `dmB` (one length-4 wildcard binding
at `0x300`) a write at `0x300` with access width `2 ^ 32 + 4` signals
channel 7, because C truncates the width to `int` 4, although every
binding's length is strictly below the access width — so the claimed
iff (signaled only when some binding's length is at least the access
width) fails at this input. -/
theorem handler_width_trunc_counterexample :
    wideReq.op = BAO_IO_WRITE ∧
      wideReq.access_width = 2 ^ 32 + 4 ∧
      (bao_ioeventfd_handler dmB wideReq).2.1 = [bindB.eventfd] ∧
      dmB.ioeventfds.all
        (fun p => decide (p.length < wideReq.access_width)) = true := by
  refine ⟨rfl, rfl, by decide, by decide⟩

/-- A deassign request for channel 7 (`flags = DEASSIGN`, no data
match). -/
def deassignCfg : bao_ioeventfd :=
  { fd := 7, flags := BAO_IOEVENTFD_FLAG_DEASSIGN, addr := 0x300,
    len := 4, data := 0 }

/-- Claim C7 evaluated on the code: a configure call with the
deassign flag set removes the binding for channel 7 (the deassign
path alone would leave no binding) but then unconditionally re-runs
the assign path, so afterwards the binding list again holds a binding
for channel 7 — the add path ran although only the remove path was
requested. -/
theorem ioeventfd_config_deassign_runs_assign :
    deassignCfg.flags &&& BAO_IOEVENTFD_FLAG_DEASSIGN ≠ 0 ∧
      (bao_ioeventfd_deassign dmB deassignCfg).1.ioeventfds = [] ∧
      (bao_ioeventfd_client_config dmB deassignCfg).1.ioeventfds =
        [ioeventfd_of_config deassignCfg] := by
  refine ⟨by decide, by decide, by decide⟩

/-! ### Empty-queue pop (claim C9) -/

/-- Claim C9: popping an empty client leaves the queue unchanged and
reports the error in band: the returned request's `ret` field is
`-EINVAL`, `bao_io_client_request` propagates exactly that `ret` as
its status, and a genuinely pushed request equal to the error request
pops back indistinguishable from the empty-queue answer. -/
theorem pop_empty_inband_error (client : bao_io_client)
    (h : client.virtio_requests = []) :
    bao_io_client_pop_request client = (client, bao_error_request) ∧
      bao_error_request.ret = -EINVAL ∧
      (bao_io_client_request (some client)).2 = -EINVAL ∧
      (bao_io_client_pop_request
          (bao_io_client_push_request client bao_error_request)).2 =
        (bao_io_client_pop_request client).2 := by
  have hpop : bao_io_client_pop_request client =
      (client, bao_error_request) := by
    unfold bao_io_client_pop_request
    rw [h]
  have hpush : bao_io_client_push_request client bao_error_request =
      { client with virtio_requests := [bao_error_request] } := by
    unfold bao_io_client_push_request
    rw [h]
    simp
  refine ⟨hpop, rfl, ?_, ?_⟩
  · simp [bao_io_client_request, hpop]
    rfl
  · rw [hpush, hpop]
    rfl

/-- Concrete instance of `pop_empty_inband_error` on a fresh Control
client. -/
theorem pop_empty_inband_error_witness :
    bao_io_client_pop_request emptyControlClient =
        (emptyControlClient, bao_error_request) ∧
      bao_error_request.ret = -EINVAL ∧
      (bao_io_client_request (some emptyControlClient)).2 = -EINVAL ∧
      (bao_io_client_pop_request
          (bao_io_client_push_request emptyControlClient
            bao_error_request)).2 =
        (bao_io_client_pop_request emptyControlClient).2 :=
  pop_empty_inband_error emptyControlClient rfl

/-! ### Routed but unsignaled writes (claim C10) -/

/-- A fresh DM as `bao_dm_create` shapes it (ioeventfd client first,
Control client second), before any binding. -/
def dmFresh : bao_dm :=
  { id := 0,
    io_clients :=
      [{ name := "bao-ioeventfd-client-0", is_control := false,
         has_handler := true, destroying := false,
         virtio_requests := [], range_list := [] },
        emptyControlClient],
    control_client := some 1, ioeventfd_client := some 0,
    ioeventfds := [] }

/-- A data-match binding configuration covering `[0x300, 0x307]`. -/
def cfg8 : bao_ioeventfd :=
  { fd := 9, flags := BAO_IOEVENTFD_FLAG_DATAMATCH, addr := 0x300,
    len := 8, data := 55 }

/-- The DM after assigning `cfg8` on `dmFresh`. -/
def dmBound : bao_dm := (bao_ioeventfd_assign dmFresh cfg8).1

/-- The binding recorded by that assign. -/
def bind8 : ioeventfd :=
  { eventfd := 9, addr := 0x300, data := 55, length := 8,
    wildcard := false }

/-- The ioeventfd client of `dmBound`, owning `[0x300, 0x307]`. -/
def boundClient : bao_io_client :=
  { name := "bao-ioeventfd-client-0", is_control := false,
    has_handler := true, destroying := false, virtio_requests := [],
    range_list := [{ start := 0x300, end_ := 0x307 }] }

theorem dmBound_eq :
    dmBound =
      { id := 0, io_clients := [boundClient, emptyControlClient],
        control_client := some 1, ioeventfd_client := some 0,
        ioeventfds := [bind8] } := by
  decide

/-- Claim C10: a write whose address lies strictly inside the
binding's registered range `[0x300, 0x307]` (but differs from the
binding's start address `0x300`) is routed to the ioeventfd client by
interval containment, yet the exact-address match finds no binding,
so no channel is signaled and the handler completes the request as a
no-op. -/
theorem routed_write_not_signaled (a v w : Nat) (hlow : 0x300 < a)
    (hw : 1 ≤ w) (hhigh : a + w - 1 ≤ 0x307) :
    bao_io_client_find dmBound (mkWrite a v w) =
        dmBound.ioeventfd_client ∧
      bao_ioeventfd_handler dmBound (mkWrite a v w) =
        (mkWrite a v w, [], 0) := by
  have hmod : (a + w + (u64Mod - 1)) % u64Mod = a + w - 1 := by
    rw [u64Mod_eq]
    omega
  have hin : bao_io_request_in_range { start := 0x300, end_ := 0x307 }
      (mkWrite a v w) = true := by
    simp [bao_io_request_in_range, mkWrite, hmod]
    omega
  have hmatches : bao_io_client_matches boundClient (mkWrite a v w)
      = true := by
    simp [bao_io_client_matches, boundClient, hin]
  constructor
  · rw [dmBound_eq]
    unfold bao_io_client_find bao_io_client_find_aux
    rw [if_pos hmatches]
  · rw [dmBound_eq]
    unfold bao_ioeventfd_handler
    rw [if_neg (by simp [mkWrite, BAO_IO_WRITE, BAO_IO_READ])]
    have hm : bao_ioeventfd_match
        ({ id := 0,
           io_clients := [boundClient, emptyControlClient],
           control_client := some 1,
           ioeventfd_client := some 0,
           ioeventfds := [bind8] } : bao_dm)
        (mkWrite a v w).addr (mkWrite a v w).value
        (c_int_of_u64 (mkWrite a v w).access_width) = none := by
      unfold bao_ioeventfd_match
      have hne : (bind8.addr == (mkWrite a v w).addr) = false := by
        simp [bind8, mkWrite]
        omega
      simp [List.find?, hne]
    rw [hm]

/-- Concrete instance of `routed_write_not_signaled`: a 4-byte write
of value `123` at `0x304`. -/
theorem routed_write_not_signaled_witness :
    bao_io_client_find dmBound (mkWrite 0x304 123 4) =
        dmBound.ioeventfd_client ∧
      bao_ioeventfd_handler dmBound (mkWrite 0x304 123 4) =
        (mkWrite 0x304 123 4, [], 0) :=
  routed_write_not_signaled 0x304 123 4 (by decide) (by decide)
    (by decide)

end BaoDrv
